import Mathlib

/-!
Verification of the omnipos-gateway admission pipeline: the Redis-backed
rate limiter, the JWT credential validator and auth interceptor, the
proto-reflection public-endpoint discovery, and the response-envelope
marshaler.  Each Go function is embedded as an executable Lean definition
translated from the source, and the specified properties are proved (or
refuted) about those definitions.
-/

set_option maxRecDepth 4000

/- ----------------------------------------------------------------- -/
/- Go string helpers used by the middleware                           -/
/- ----------------------------------------------------------------- -/

/-- Text of a string up to (excluding) the first comma: this is
`strings.Split(s, ",")[0]` from Go. -/
def firstCommaField (s : String) : String :=
  (s.toList.takeWhile (fun c => c ≠ ',')).asString

/-- Go's `strings.HasPrefix(s, pre)`. -/
def goHasPfx (s pre : String) : Bool :=
  pre.toList.isPrefixOf s.toList

/-- Go's `strings.TrimSpace`: remove leading and trailing whitespace. -/
def goTrimSpace (s : String) : String :=
  (((s.toList.dropWhile Char.isWhitespace).reverse.dropWhile Char.isWhitespace).reverse).asString

/-- Lines 107-115 of the rate limiter file (`getClientIP` fallback): if the
address contains a colon, keep only the part before the last colon
(`addr[:strings.LastIndex(addr, ":")]`); otherwise return it unchanged. -/
def stripPortLastColon (addr : String) : String :=
  if addr.toList.contains ':' then
    ((((addr.toList.reverse).dropWhile (fun c => c ≠ ':')).drop 1).reverse).asString
  else addr

/- ----------------------------------------------------------------- -/
/- Rate limiter (internal/middleware rate-limit file)                 -/
/- ----------------------------------------------------------------- -/

/-- Fields of `config.RateLimitConfig` (config package). -/
structure RateLimitConfig where
  Enabled : Bool
  PublicRPS : Int
  PublicBurst : Int
  AuthRPS : Int
  AuthBurst : Int
deriving Repr, DecidableEq

/-- The parts of an inbound `*http.Request` the rate limiter reads.
Each header field holds `r.Header.Get(...)`, which is `""` when the header
is absent. -/
structure HttpRequest where
  authorization : String
  xForwardedFor : String
  xRealIP : String
  remoteAddr : String
deriving Repr, DecidableEq

/-- `redis_rate.Limit`: rate, burst, and period in nanoseconds
(`time.Second = 10^9 ns`). -/
structure RedisRateLimit where
  Rate : Int
  Burst : Int
  Period : Int
deriving Repr, DecidableEq

/-- `redis_rate.Result` fields the limiter reads.  `ResetAfter` and
`RetryAfter` are Go `time.Duration` values (nanoseconds). -/
structure AllowResult where
  Allowed : Int
  Remaining : Int
  ResetAfter : Int
  RetryAfter : Int
deriving Repr, DecidableEq

/-- `getClientIP` translated from the source: X-Forwarded-For first
(first comma-separated value, trimmed), then X-Real-IP, then
`RemoteAddr` with the port stripped at the last colon. -/
def getClientIP (r : HttpRequest) : String :=
  if r.xForwardedFor ≠ "" then
    goTrimSpace (firstCommaField r.xForwardedFor)
  else if r.xRealIP ≠ "" then
    r.xRealIP
  else
    stripPortLastColon r.remoteAddr

/-- `RateLimiter.getLimit` translated from the source: an
`Authorization` header selects the key `"rate_limit:auth:" + header` and
the authenticated tier; otherwise the key is `"rate_limit:ip:" + ip` and
the public tier. -/
def getLimit (cfg : RateLimitConfig) (r : HttpRequest) : String × RedisRateLimit :=
  if r.authorization ≠ "" then
    ("rate_limit:auth:" ++ r.authorization,
      { Rate := cfg.AuthRPS, Burst := cfg.AuthBurst, Period := 1000000000 })
  else
    ("rate_limit:ip:" ++ getClientIP r,
      { Rate := cfg.PublicRPS, Burst := cfg.PublicBurst, Period := 1000000000 })

/-- JSON documents, with object fields in emission order. -/
inductive Json where
  | null
  | bool (b : Bool)
  | num (n : Int)
  | str (s : String)
  | obj (fields : List (String × Json))

/-- Body written by Go's `http.Error` (plain text) versus a JSON body
produced by the envelope marshaler. -/
inductive ResponseBody where
  | textBody (s : String)
  | jsonBody (j : Json)

/-- Observable outcome of one pass through `RateLimiter.Limit`: whether
`next.ServeHTTP` ran, which response headers were set, and any
short-circuit status/body written. -/
structure LimitOutcome where
  forwarded : Bool
  headers : List (String × String)
  status : Option Int
  body : Option ResponseBody

/-- `RateLimiter.Limit` translated from the source.  The Counter Store
round trip `rl.limiter.Allow(ctx, key, limit)` is passed in as the
function `store`; `.error ()` models a Redis error.  `http.Error` writes
the message plus a newline with status 429. -/
def RateLimiter.Limit (cfg : RateLimitConfig)
    (store : String → RedisRateLimit → Except Unit AllowResult)
    (r : HttpRequest) : LimitOutcome :=
  if !cfg.Enabled then
    { forwarded := true, headers := [], status := none, body := none }
  else
    let kl := getLimit cfg r
    match store kl.1 kl.2 with
    | .error _ =>
        { forwarded := true, headers := [], status := none, body := none }
    | .ok res =>
        let hs := [("X-RateLimit-Limit", toString kl.2.Rate),
                   ("X-RateLimit-Remaining", toString res.Remaining),
                   ("X-RateLimit-Reset", toString (Int.tdiv res.ResetAfter 1000000))]
        if res.Allowed = 0 then
          { forwarded := false,
            headers := hs ++ [("Retry-After", toString (Int.tdiv res.RetryAfter 1000000000))],
            status := some 429,
            body := some (.textBody "Too Many Requests\n") }
        else
          { forwarded := true, headers := hs, status := none, body := none }

/- ----------------------------------------------------------------- -/
/- Credential validator (internal/middleware/jwt.go) and the          -/
/- golang-jwt/jwt v5 library it calls                                 -/
/- ----------------------------------------------------------------- -/

/-- Relevant content of a JWT token string once decoded: whether the
compact serialization is malformed, whether the header algorithm is an
HMAC method, whether the signature verifies under the process secret,
and the embedded claims (`merchant_id` and the registered `exp`, in unix
seconds, `none` when absent). -/
structure TokenData where
  malformed : Bool
  algHMAC : Bool
  sigValid : Bool
  merchantID : String
  expiresAt : Option Int
deriving Repr, DecidableEq

/-- Error classes returned by `jwt.ParseWithClaims` of
github.com/golang-jwt/jwt/v5 (v5.3.1, per go.mod).  Each constructor is a
distinct Go error value produced by `newError`, wrapping (not equal to)
any sentinel passed to it. -/
inductive JwtLibError where
  | tokenMalformed
  | tokenUnverifiable
  | signatureInvalid
  | tokenInvalidClaims (expired : Bool)
deriving Repr, DecidableEq

/-- Error values as compared by Go's `==` in the interceptor:
`middleware.ErrInvalidToken`, `middleware.ErrExpiredToken`, and the
distinct wrapped errors coming out of the jwt library. -/
inductive AuthError where
  | errInvalidToken
  | errExpiredToken
  | libErr (e : JwtLibError)
deriving Repr, DecidableEq

/-- Model of `jwt.ParseWithClaims` from golang-jwt/jwt v5.3.1 with the
keyfunc of `JWTHelper.ValidateToken` (jwt.go lines 35-41): structural
decoding first (`ErrTokenMalformed`); then the keyfunc, which returns
`ErrInvalidToken` for a non-HMAC method and is wrapped by the parser as
`ErrTokenUnverifiable`; then signature verification
(`ErrTokenSignatureInvalid`); then registered-claims validation, which
fails with a wrapped `ErrTokenExpired` when `exp` is present and not
after `now` (v5 `validator.verifyExpiresAt` accepts only `now < exp`).
On success the parser returns the claims with `token.Valid = true`. -/
def jwtParseWithClaims (now : Int) (t : TokenData) : Except JwtLibError TokenData :=
  if t.malformed then .error .tokenMalformed
  else if !t.algHMAC then .error .tokenUnverifiable
  else if !t.sigValid then .error .signatureInvalid
  else
    match t.expiresAt with
    | some e => if e ≤ now then .error (.tokenInvalidClaims true) else .ok t
    | none => .ok t

/-- `JWTHelper.ValidateToken` translated from jwt.go lines 34-57: parse
with the library (returning the library's error unchanged on failure,
lines 43-45), then re-check `claims.ExpiresAt.Before(time.Now())` and
return the sentinel `ErrExpiredToken` when the expiry is in the past
(lines 52-55). -/
def ValidateToken (now : Int) (t : TokenData) : Except AuthError TokenData :=
  match jwtParseWithClaims now t with
  | .error e => .error (.libErr e)
  | .ok claims =>
      match claims.expiresAt with
      | some e => if e < now then .error .errExpiredToken else .ok claims
      | none => .ok claims

/-- `JWTHelper.ExtractMerchantID` translated from jwt.go lines 61-67. -/
def ExtractMerchantID (now : Int) (t : TokenData) : Except AuthError String :=
  match ValidateToken now t with
  | .error e => .error e
  | .ok claims => .ok claims.merchantID

/- ----------------------------------------------------------------- -/
/- Auth interceptor (internal/middleware/auth_interceptor.go)         -/
/- ----------------------------------------------------------------- -/

/-- gRPC metadata (`metadata.MD`): a map from lowercase keys to value
lists, modelled as an association list with distinct keys. -/
abbrev MDList := List (String × List String)

/-- `metadata.MD.Get`: the value list stored under a (lowercase) key,
empty when absent. -/
def mdGet (md : MDList) (k : String) : List String :=
  (md.lookup k).getD []

/-- The two metadata maps reachable from a call context:
`metadata.FromIncomingContext` and `metadata.FromOutgoingContext`
(`none` when the context carries no such map). -/
structure GoContext where
  incomingMD : Option MDList
  outgoingMD : Option MDList
deriving Repr, DecidableEq

/-- Lines 49-53 of the interceptor: take the incoming metadata; when it
is absent or empty fall back to the outgoing metadata. -/
def effMD (ctx : GoContext) : Option MDList :=
  match ctx.incomingMD with
  | some md => if md.isEmpty then ctx.outgoingMD else some md
  | none => ctx.outgoingMD

/-- `metadata.Join`: a map holding every key of both arguments, with the
value lists concatenated (values of `a` first). -/
def mdJoin (a b : MDList) : MDList :=
  (a.map (fun p => (p.1, p.2 ++ (b.lookup p.1).getD []))) ++
    b.filter (fun p => (a.lookup p.1).isNone)

/-- Result of one interceptor invocation: either the backend invoker ran
(with the final outgoing metadata), or the call was rejected with a gRPC
status code and message (`codes.Unauthenticated = 16`). -/
inductive InterceptResult where
  | invoked (outgoingMD : Option MDList)
  | rejected (code : Int) (msg : String)
deriving Repr, DecidableEq

def missingAuthMsg : String := "missing authorization header"

def invalidFormatMsg : String := "invalid authorization header format"

def expiredMsg : String := "token has expired"

def invalidTokenMsg : String := "invalid token"

def authorizationKey : String := "authorization"

def gatewayAuthKey : String := "grpcgateway-authorization"

def merchantIDKey : String := "x-merchant-id"

def bearerPfx : String := "Bearer "

/-- The credential-extraction block of the interceptor (lines 48-79 of
auth_interceptor.go): the effective metadata (incoming, falling back to
outgoing), then the `authorization` values with the
`grpcgateway-authorization` fallback, then the first value.  `none` is
every path on which the source rejects with "missing authorization
header" (no metadata, empty metadata, or no authorization value). -/
def authHeaderOf (ctx : GoContext) : Option String :=
  match effMD ctx with
  | none => none
  | some md =>
    if md.isEmpty then none
    else
      match (if (mdGet md authorizationKey).isEmpty
             then mdGet md gatewayAuthKey
             else mdGet md authorizationKey) with
      | [] => none
      | hdr :: _ => some hdr

/-- `AuthInterceptor.Unary` translated from the source.  `pubs` is the
public-endpoint set, `now` the current time, and `tokenOf` the decoding
of a token string into its `TokenData` under the process secret.  Exempt
methods are forwarded untouched; otherwise the authorization value is
extracted (`authHeaderOf`; every failure there rejects with the same
"missing authorization header" message in the source), checked for the
`"Bearer "` format, validated, and on success the merchant id is joined
into the outgoing metadata. -/
def AuthInterceptor.Unary (pubs : List String) (now : Int)
    (tokenOf : String → TokenData) (ctx : GoContext) (method : String) :
    InterceptResult :=
  if method ∈ pubs then .invoked ctx.outgoingMD
  else
    match authHeaderOf ctx with
    | none => .rejected 16 missingAuthMsg
    | some hdr =>
      if !goHasPfx hdr bearerPfx then .rejected 16 invalidFormatMsg
      else
        let token := (hdr.toList.drop 7).asString
        match ExtractMerchantID now (tokenOf token) with
        | .error e =>
            if e = .errExpiredToken then .rejected 16 expiredMsg
            else .rejected 16 invalidTokenMsg
        | .ok mid =>
            .invoked (some (mdJoin (ctx.outgoingMD.getD []) [(merchantIDKey, [mid])]))

/- ----------------------------------------------------------------- -/
/- Public endpoint discovery (internal/middleware/proto_reflection.go)-/
/- ----------------------------------------------------------------- -/

/-- Value of a proto option extension as seen through
`proto.GetExtension` followed by the `.(bool)` type assertion. -/
inductive ExtensionValue where
  | boolVal (b : Bool)
  | otherVal
deriving Repr, DecidableEq

/-- A method descriptor: its name and its options, `none` when
`method.Options()` is nil; options are an extension map keyed by the
fully-qualified extension name. -/
structure MethodDesc where
  name : String
  options : Option (List (String × ExtensionValue))
deriving Repr, DecidableEq

/-- A service descriptor: fully-qualified service name and methods. -/
structure ServiceDesc where
  fullName : String
  methods : List MethodDesc
deriving Repr, DecidableEq

/-- A file descriptor as iterated by
`protoregistry.GlobalFiles.RangeFiles`. -/
structure FileDesc where
  services : List ServiceDesc
deriving Repr, DecidableEq

def publicEndpointExt : String := "auth.v1.public_endpoint"

/-- `isPublicEndpoint` translated from proto_reflection.go lines 59-74:
nil options give false; when the `(auth.v1.public_endpoint)` extension is
present and its value is a bool, that bool is returned; any other case
gives false. -/
def isPublicEndpoint (m : MethodDesc) : Bool :=
  match m.options with
  | none => false
  | some opts =>
    match opts.lookup publicEndpointExt with
    | some (.boolVal b) => b
    | some .otherVal => false
    | none => false

/-- `DiscoverPublicEndpoints` translated from proto_reflection.go lines
29-51 (the scan itself; the `sync.RWMutex` cache around it only
memoizes this pure computation): every method of every service of every
registered file whose `isPublicEndpoint` is true contributes the key
`"/" + service.FullName() + "/" + method.Name()`. -/
def DiscoverPublicEndpoints (files : List FileDesc) : List String :=
  files.flatMap (fun fd =>
    fd.services.flatMap (fun s =>
      (s.methods.filter isPublicEndpoint).map
        (fun m => "/" ++ s.fullName ++ "/" ++ m.name)))

/- ----------------------------------------------------------------- -/
/- Response envelope marshaler (internal/runtime custom marshaler)    -/
/- ----------------------------------------------------------------- -/

/-- Dynamic Go values reaching `CustomMarshaler.Marshal` as
`interface{}`: the constructors record the Go dynamic type, which the
type switches in the source dispatch on.  `vFloat` carries a float64
holding an integral value (the only ones relevant to status codes).
`vStatusProto` is `*status.Status`. -/
inductive GoValue where
  | vNull
  | vBool (b : Bool)
  | vInt (n : Int)
  | vInt32 (n : Int)
  | vFloat (n : Int)
  | vStr (s : String)
  | vMapAny (entries : List (String × GoValue))
  | vMapStr (entries : List (String × String))
  | vStatusProto (code : Int) (message : String)

/-- Byte-wise (code-point-wise) string order used by Go's
`encoding/json` when sorting map keys. -/
def charListLe : List Char → List Char → Bool
  | [], _ => true
  | _ :: _, [] => false
  | a :: as, b :: bs => if a = b then charListLe as bs else decide (a < b)

def strLe (a b : String) : Bool := charListLe a.toList b.toList

/-- Insertion sort of object fields by key, as `encoding/json` orders
the keys of a marshaled Go map. -/
def insertField (p : String × Json) : List (String × Json) → List (String × Json)
  | [] => [p]
  | q :: rest => if strLe p.1 q.1 then p :: q :: rest else q :: insertField p rest

def sortFields : List (String × Json) → List (String × Json)
  | [] => []
  | p :: rest => insertField p (sortFields rest)

def codeKey : String := "code"

def messageKey : String := "message"

mutual

/-- JSON marshaling of a plain Go value (the `encoding/json` fallback
inside `runtime.JSONPb.Marshal` for non-proto values): maps emit their
keys sorted. -/
def jsonMarshalGo : GoValue → Json
  | .vNull => .null
  | .vBool b => .bool b
  | .vInt n => .num n
  | .vInt32 n => .num n
  | .vFloat n => .num n
  | .vStr s => .str s
  | .vMapStr es => .obj (sortFields (es.map (fun p => (p.1, Json.str p.2))))
  | .vMapAny es => .obj (sortFields (jsonMarshalEntries es))
  | .vStatusProto c m => .obj [(codeKey, .num c), (messageKey, .str m)]

/-- Field-wise marshaling of a `map[string]interface{}`. -/
def jsonMarshalEntries : List (String × GoValue) → List (String × Json)
  | [] => []
  | (k, v) :: rest => (k, jsonMarshalGo v) :: jsonMarshalEntries rest

end

def statusKey : String := "status"

def dataKey : String := "data"

def successMsg : String := "success"

/-- `runtime.HTTPStatusFromCode` of grpc-gateway applied to
`codes.Code(val)`: the Go `int` is first converted to the `uint32`-based
`codes.Code` (wrapping modulo 2^32), then mapped through the standard
gRPC-code to HTTP-status table, any unknown code giving 500. -/
def grpcHTTPStatusFromCode (c : Int) : Int :=
  match (Int.emod c 4294967296).toNat with
  | 0 => 200
  | 1 => 499
  | 2 => 500
  | 3 => 400
  | 4 => 504
  | 5 => 404
  | 6 => 409
  | 7 => 403
  | 8 => 429
  | 9 => 400
  | 10 => 409
  | 11 => 400
  | 12 => 501
  | 13 => 500
  | 14 => 503
  | 15 => 500
  | 16 => 401
  | _ => 500

/-- The `switch val := code.(type)` of the Marshal error branch: an
`int`, `float64` or `int32` code is mapped through the gRPC table,
anything else leaves the default 200. -/
def errCodeStatus : GoValue → Int
  | .vInt n => grpcHTTPStatusFromCode n
  | .vFloat n => grpcHTTPStatusFromCode n
  | .vInt32 n => grpcHTTPStatusFromCode n
  | _ => 200

/-- The success wrap at the end of `CustomMarshaler.Marshal`: the
payload is serialized by the embedded `JSONPb` marshaler, then placed in
`StandardResponse{Status: 200, Message: "success", Data: data}`, whose
struct fields marshal in declaration order. -/
def successWrap (v : GoValue) : Json :=
  .obj [(statusKey, .num 200), (messageKey, .str successMsg), (dataKey, jsonMarshalGo v)]

/-- `CustomMarshaler.Marshal` translated from the source: a
`map[string]interface{}` carrying both a `"code"` and a `"message"` key
is treated as a grpc-gateway error and emitted as
`{status, message, data: null}` (a Go map, so the three keys marshal in
sorted order), with the status mapped from the code when the code is an
`int`, `float64` or `int32` and left at the default 200 otherwise;
a `*status.Status` is emitted the same way; everything else takes the
success wrap. -/
def CustomMarshaler.Marshal (v : GoValue) : Json :=
  match v with
  | .vMapAny errMap =>
    match errMap.lookup codeKey, errMap.lookup messageKey with
    | some code, some msg =>
      .obj [(dataKey, .null), (messageKey, jsonMarshalGo msg),
        (statusKey, .num (errCodeStatus code))]
    | _, _ => successWrap (.vMapAny errMap)
  | .vStatusProto c m =>
      .obj [(dataKey, .null), (messageKey, .str m), (statusKey, .num (grpcHTTPStatusFromCode c))]
  | other => successWrap other

/-- Top-level keys of a JSON document, when it is an object. -/
def jsonKeys : Json → Option (List String)
  | .obj fs => some (fs.map Prod.fst)
  | _ => none

def insertStr (s : String) : List String → List String
  | [] => [s]
  | t :: rest => if strLe s t then s :: t :: rest else t :: insertStr s rest

def sortStrings : List String → List String
  | [] => []
  | s :: rest => insertStr s (sortStrings rest)

/-- Top-level keys of a JSON document in sorted order (order-insensitive
view of an object's key set). -/
def jsonKeySet (j : Json) : Option (List String) :=
  (jsonKeys j).map sortStrings

/- ----------------------------------------------------------------- -/
/- Concrete fixtures used by witnesses and counterexamples            -/
/- ----------------------------------------------------------------- -/

/-- A configuration with the limiter enabled. -/
def cfgOn : RateLimitConfig :=
  { Enabled := true, PublicRPS := 20, PublicBurst := 40, AuthRPS := 100, AuthBurst := 200 }

/-- A request carrying an Authorization header. -/
def reqAuth : HttpRequest :=
  { authorization := "token-abc", xForwardedFor := "", xRealIP := "", remoteAddr := "10.0.0.9:5123" }

/-- A request with no Authorization header and no proxy headers. -/
def reqAnon : HttpRequest :=
  { authorization := "", xForwardedFor := "", xRealIP := "", remoteAddr := "10.0.0.9:5123" }

/-- An anonymous request behind a proxy chain. -/
def reqXff : HttpRequest :=
  { authorization := "", xForwardedFor := " 1.2.3.4 , 5.6.7.8", xRealIP := "9.9.9.9",
    remoteAddr := "10.0.0.9:5123" }

/-- A Counter Store that errors on every call. -/
def storeErr : String → RedisRateLimit → Except Unit AllowResult := fun _ _ => .error ()

/-- A Counter Store result denying the request. -/
def denyRes : AllowResult :=
  { Allowed := 0, Remaining := 0, ResetAfter := 250000000, RetryAfter := 3000000000 }

/-- A Counter Store result allowing the request. -/
def allowRes : AllowResult :=
  { Allowed := 1, Remaining := 7, ResetAfter := 250000000, RetryAfter := -1 }

/-- A Counter Store that denies every call. -/
def storeDeny : String → RedisRateLimit → Except Unit AllowResult := fun _ _ => .ok denyRes

/-- A Counter Store that allows every call. -/
def storeAllow : String → RedisRateLimit → Except Unit AllowResult := fun _ _ => .ok allowRes

/- ----------------------------------------------------------------- -/
/- Theorems                                                           -/
/- ----------------------------------------------------------------- -/

/-- C3: if the Counter Store call returns an error, the Rate Limiter
fails open: the request is forwarded regardless of prior count, no
rejection is returned, and no rate-limit or rejection headers are set. -/
theorem rateLimiter_fails_open (cfg : RateLimitConfig)
    (store : String → RedisRateLimit → Except Unit AllowResult) (r : HttpRequest)
    (hEn : cfg.Enabled = true)
    (hErr : store (getLimit cfg r).1 (getLimit cfg r).2 = .error ()) :
    RateLimiter.Limit cfg store r =
      { forwarded := true, headers := [], status := none, body := none } := by
  simp [RateLimiter.Limit, hEn, hErr]

/-- Witness for C3 at a concrete enabled configuration and erroring store. -/
theorem rateLimiter_fails_open_witness :
    RateLimiter.Limit cfgOn storeErr reqAnon =
      { forwarded := true, headers := [], status := none, body := none } :=
  rateLimiter_fails_open cfgOn storeErr reqAnon rfl rfl

/-- C6: with the limiter enabled and a successful Counter Store call,
the three X-RateLimit response headers (reset in milliseconds) are set
whether the request is allowed or denied; a deny additionally sets
Retry-After in whole seconds, answers 429, and does not forward; an
allow forwards with no short-circuit status. -/
theorem rateLimiter_sets_headers (cfg : RateLimitConfig)
    (store : String → RedisRateLimit → Except Unit AllowResult) (r : HttpRequest)
    (res : AllowResult)
    (hEn : cfg.Enabled = true)
    (hOk : store (getLimit cfg r).1 (getLimit cfg r).2 = .ok res) :
    (("X-RateLimit-Limit", toString (getLimit cfg r).2.Rate)
        ∈ (RateLimiter.Limit cfg store r).headers ∧
      ("X-RateLimit-Remaining", toString res.Remaining)
        ∈ (RateLimiter.Limit cfg store r).headers ∧
      ("X-RateLimit-Reset", toString (Int.tdiv res.ResetAfter 1000000))
        ∈ (RateLimiter.Limit cfg store r).headers) ∧
    (res.Allowed = 0 →
      ("Retry-After", toString (Int.tdiv res.RetryAfter 1000000000))
          ∈ (RateLimiter.Limit cfg store r).headers ∧
        (RateLimiter.Limit cfg store r).status = some 429 ∧
        (RateLimiter.Limit cfg store r).forwarded = false) ∧
    (res.Allowed ≠ 0 →
      (RateLimiter.Limit cfg store r).forwarded = true ∧
        (RateLimiter.Limit cfg store r).status = none ∧
        (RateLimiter.Limit cfg store r).body = none) := by
  by_cases hA : res.Allowed = 0 <;> simp [RateLimiter.Limit, hEn, hOk, hA]

/-- Witness for C6 at a concrete enabled configuration and a denying
store result. -/
theorem rateLimiter_sets_headers_witness :
    (("X-RateLimit-Limit", toString (getLimit cfgOn reqAnon).2.Rate)
        ∈ (RateLimiter.Limit cfgOn storeDeny reqAnon).headers ∧
      ("X-RateLimit-Remaining", toString denyRes.Remaining)
        ∈ (RateLimiter.Limit cfgOn storeDeny reqAnon).headers ∧
      ("X-RateLimit-Reset", toString (Int.tdiv denyRes.ResetAfter 1000000))
        ∈ (RateLimiter.Limit cfgOn storeDeny reqAnon).headers) ∧
    (denyRes.Allowed = 0 →
      ("Retry-After", toString (Int.tdiv denyRes.RetryAfter 1000000000))
          ∈ (RateLimiter.Limit cfgOn storeDeny reqAnon).headers ∧
        (RateLimiter.Limit cfgOn storeDeny reqAnon).status = some 429 ∧
        (RateLimiter.Limit cfgOn storeDeny reqAnon).forwarded = false) ∧
    (denyRes.Allowed ≠ 0 →
      (RateLimiter.Limit cfgOn storeDeny reqAnon).forwarded = true ∧
        (RateLimiter.Limit cfgOn storeDeny reqAnon).status = none ∧
        (RateLimiter.Limit cfgOn storeDeny reqAnon).body = none) :=
  rateLimiter_sets_headers cfgOn storeDeny reqAnon denyRes rfl rfl

theorem string_data_append (a b : String) : (a ++ b).data = a.data ++ b.data := by
  cases a
  cases b
  rfl

/-- The auth-tier and ip-tier key namespaces are disjoint: the two
prefixes differ at index 11. -/
theorem authKey_ne_ipKey (s t : String) :
    ("rate_limit:auth:" ++ s) ≠ ("rate_limit:ip:" ++ t) := by
  intro h
  have hd : "rate_limit:auth:".data ++ s.data = "rate_limit:ip:".data ++ t.data := by
    have h2 := congrArg String.data h
    rw [string_data_append, string_data_append] at h2
    exact h2
  have h11 : ("rate_limit:auth:".data ++ s.data)[11]? =
      ("rate_limit:ip:".data ++ t.data)[11]? := by rw [hd]
  rw [List.getElem?_append, List.getElem?_append] at h11
  rw [if_pos (by decide), if_pos (by decide)] at h11
  exact absurd h11 (by decide)

/-- C4 counterexample: the implemented auth-tier key prefix is
`"rate_limit:auth:"`, not the claimed `"rate:auth:"`. -/
theorem getLimit_key_cex :
    (getLimit cfgOn reqAuth).1 = "rate_limit:auth:" ++ reqAuth.authorization ∧
    ((getLimit cfgOn reqAuth).1 == "rate:auth:" ++ reqAuth.authorization) = false := by
  exact ⟨rfl, by decide⟩

/-- C4 amended: a request with an Authorization header gets the key
`"rate_limit:auth:" + <raw credential>` and the authenticated tier
unconditionally; one without gets `"rate_limit:ip:" + <resolved client
address>` and the anonymous tier; the two key namespaces never collide. -/
theorem getLimit_amended (cfg cfg' : RateLimitConfig) (r r' : HttpRequest)
    (h : r.authorization ≠ "") (h' : r'.authorization = "") :
    getLimit cfg r = ("rate_limit:auth:" ++ r.authorization,
      { Rate := cfg.AuthRPS, Burst := cfg.AuthBurst, Period := 1000000000 }) ∧
    getLimit cfg' r' = ("rate_limit:ip:" ++ getClientIP r',
      { Rate := cfg'.PublicRPS, Burst := cfg'.PublicBurst, Period := 1000000000 }) ∧
    (getLimit cfg r).1 ≠ (getLimit cfg' r').1 := by
  refine ⟨by simp [getLimit, h], by simp [getLimit, h'], ?_⟩
  simp only [getLimit, if_pos h, if_neg (not_not_intro h')]
  exact authKey_ne_ipKey r.authorization (getClientIP r')

/-- Witness for C4's amended statement at concrete requests with and
without a credential. -/
theorem getLimit_amended_witness :
    getLimit cfgOn reqAuth = ("rate_limit:auth:" ++ reqAuth.authorization,
      { Rate := cfgOn.AuthRPS, Burst := cfgOn.AuthBurst, Period := 1000000000 }) ∧
    getLimit cfgOn reqAnon = ("rate_limit:ip:" ++ getClientIP reqAnon,
      { Rate := cfgOn.PublicRPS, Burst := cfgOn.PublicBurst, Period := 1000000000 }) ∧
    (getLimit cfgOn reqAuth).1 ≠ (getLimit cfgOn reqAnon).1 :=
  getLimit_amended cfgOn cfgOn reqAuth reqAnon (by decide) rfl

/-- C5: for a request without a bearer credential the address used for
the rate key resolves in this exact order: the first comma-separated
value of X-Forwarded-For (trimmed) when that header is non-empty, else
X-Real-IP when non-empty, else the peer address with its port stripped
at the rightmost colon, an address with no colon passing through
unchanged. -/
theorem getClientIP_resolution (cfg : RateLimitConfig) (r : HttpRequest)
    (hAuth : r.authorization = "") :
    (getLimit cfg r).1 = "rate_limit:ip:" ++ getClientIP r ∧
    (r.xForwardedFor ≠ "" →
      getClientIP r = goTrimSpace (firstCommaField r.xForwardedFor)) ∧
    (r.xForwardedFor = "" → r.xRealIP ≠ "" → getClientIP r = r.xRealIP) ∧
    (r.xForwardedFor = "" → r.xRealIP = "" →
      getClientIP r = stripPortLastColon r.remoteAddr) ∧
    (r.remoteAddr.toList.contains ':' = false →
      stripPortLastColon r.remoteAddr = r.remoteAddr) := by
  refine ⟨by simp [getLimit, hAuth], ?_, ?_, ?_, ?_⟩
  · intro h1
    simp [getClientIP, h1]
  · intro h1 h2
    simp [getClientIP, h1, h2]
  · intro h1 h2
    simp [getClientIP, h1, h2]
  · intro h1
    simp at h1
    simp [stripPortLastColon, h1]

/-- Witness for C5 at a concrete proxied anonymous request. -/
theorem getClientIP_resolution_witness :
    (getLimit cfgOn reqXff).1 = "rate_limit:ip:" ++ getClientIP reqXff ∧
    (reqXff.xForwardedFor ≠ "" →
      getClientIP reqXff = goTrimSpace (firstCommaField reqXff.xForwardedFor)) ∧
    (reqXff.xForwardedFor = "" → reqXff.xRealIP ≠ "" →
      getClientIP reqXff = reqXff.xRealIP) ∧
    (reqXff.xForwardedFor = "" → reqXff.xRealIP = "" →
      getClientIP reqXff = stripPortLastColon reqXff.remoteAddr) ∧
    (reqXff.remoteAddr.toList.contains ':' = false →
      stripPortLastColon reqXff.remoteAddr = reqXff.remoteAddr) :=
  getClientIP_resolution cfgOn reqXff rfl

/-- A non-exempt method identifier. -/
def mtd : String := "/user.v1.MerchantService/GetMerchant"

/-- A call context carrying no metadata at all. -/
def ctxNoMD : GoContext := { incomingMD := none, outgoingMD := none }

/-- A decoding environment in which every token string is well formed,
HMAC signed with a valid signature, and carries an expiry 100 seconds in
the past of the fixed clock 1000. -/
def expiredDecode : String → TokenData := fun _ =>
  { malformed := false, algHMAC := true, sigValid := true,
    merchantID := "merchant-42", expiresAt := some 900 }

/-- An incoming context carrying a well-formed bearer header. -/
def ctxBearer : GoContext :=
  { incomingMD := some [(authorizationKey, ["Bearer e.x.p"])], outgoingMD := none }

/-- C7 (amended): an exempt method is forwarded unmodified with no
credential required; on a non-exempt method a missing authorization
value rejects with the unauthenticated message "missing authorization
header", and a value not prefixed `"Bearer "` rejects with "invalid
authorization header format"; in each rejection the backend invoker
never runs. -/
theorem authInterceptor_gatekeeping (pubs : List String) (now : Int)
    (tokenOf : String → TokenData) (ctx : GoContext) (method : String) :
    (method ∈ pubs →
      AuthInterceptor.Unary pubs now tokenOf ctx method = .invoked ctx.outgoingMD) ∧
    (method ∉ pubs → authHeaderOf ctx = none →
      AuthInterceptor.Unary pubs now tokenOf ctx method = .rejected 16 missingAuthMsg) ∧
    (∀ hdr, method ∉ pubs → authHeaderOf ctx = some hdr →
      goHasPfx hdr bearerPfx = false →
      AuthInterceptor.Unary pubs now tokenOf ctx method = .rejected 16 invalidFormatMsg) := by
  refine ⟨?_, ?_, ?_⟩
  · intro h
    simp [AuthInterceptor.Unary, h]
  · intro h hn
    simp [AuthInterceptor.Unary, h, hn]
  · intro hdr h hs hb
    simp [AuthInterceptor.Unary, h, hs, hb]

/-- C7 counterexample: the implemented missing-credential message is
"missing authorization header", not the claimed "missing
authorization". -/
theorem authInterceptor_missing_msg_cex :
    AuthInterceptor.Unary [] 1000 expiredDecode ctxNoMD mtd =
      .rejected 16 missingAuthMsg ∧
    (missingAuthMsg == "missing authorization") = false := by
  exact ⟨rfl, rfl⟩

/-- The sentinel branch of jwt.go line 53-55 is unreachable: the jwt v5
parser already rejects a past expiry during claims validation, so
`ValidateToken` can never return the middleware's own `ErrExpiredToken`
value the interceptor compares against. -/
theorem validateToken_no_expired_sentinel (n : Int) (t : TokenData) :
    ValidateToken n t ≠ .error .errExpiredToken := by
  rcases t with ⟨mal, alg, sig, mid, exp⟩
  cases mal <;> cases alg <;> cases sig <;> cases exp <;>
      simp [ValidateToken, jwtParseWithClaims]
  rename_i e
  by_cases he : e ≤ n
  · simp [he]
  · simp [he]
    omega

/-- C1: a token with a valid HMAC signature and an expiry in the past is
rejected, but with the generic "invalid token" message, because
`jwt.ParseWithClaims` (v5) returns its own wrapped expiry error, which
the interceptor's identity comparison with `ErrExpiredToken` misses; the
sentinel branch is dead for every input. -/
theorem expiredToken_rejected_as_invalidToken :
    ValidateToken 1000 (expiredDecode "e.x.p") =
      .error (.libErr (.tokenInvalidClaims true)) ∧
    AuthInterceptor.Unary [] 1000 expiredDecode ctxBearer mtd =
      .rejected 16 invalidTokenMsg ∧
    (invalidTokenMsg == expiredMsg) = false ∧
    (∀ n t, ValidateToken n t ≠ .error .errExpiredToken) := by
  exact ⟨rfl, rfl, rfl, validateToken_no_expired_sentinel⟩

/-- A method is classified public exactly when its options are present
and carry the `(auth.v1.public_endpoint)` extension with the value
`true`. -/
theorem isPublicEndpoint_iff (m : MethodDesc) :
    isPublicEndpoint m = true ↔
      ∃ opts, m.options = some opts ∧
        opts.lookup publicEndpointExt = some (.boolVal true) := by
  unfold isPublicEndpoint
  cases hopt : m.options with
  | none => simp
  | some opts =>
    cases hlk : opts.lookup publicEndpointExt with
    | none => simp [hlk]
    | some v =>
      cases v with
      | otherVal => simp [hlk]
      | boolVal b => cases b <;> simp [hlk]

/-- C9: a key is in the discovered public-endpoint set iff some
registered method carries the `public_endpoint` annotation explicitly
present and equal to true (absent options, absent annotation, or any
non-true value excludes it), and the key has the form
`"/<service-full-name>/<method-name>"`. -/
theorem discoverPublicEndpoints_iff (files : List FileDesc) (key : String) :
    key ∈ DiscoverPublicEndpoints files ↔
      ∃ fd ∈ files, ∃ s ∈ fd.services, ∃ m ∈ s.methods,
        (∃ opts, m.options = some opts ∧
          opts.lookup publicEndpointExt = some (.boolVal true)) ∧
        key = "/" ++ s.fullName ++ "/" ++ m.name := by
  simp only [DiscoverPublicEndpoints, List.mem_flatMap, List.mem_map,
    List.mem_filter, isPublicEndpoint_iff]
  constructor
  · rintro ⟨fd, hfd, s, hs, m, ⟨hm, hpub⟩, hkey⟩
    exact ⟨fd, hfd, s, hs, m, hm, hpub, hkey.symm⟩
  · rintro ⟨fd, hfd, s, hs, m, hm, hpub, hkey⟩
    exact ⟨fd, hfd, s, hs, m, ⟨hm, hpub⟩, hkey.symm⟩

/-- Whether a response body is a JSON object with exactly the three
envelope keys. -/
def bodyIsEnvelope : Option ResponseBody → Bool
  | some (.jsonBody j) => jsonKeySet j == some [dataKey, messageKey, statusKey]
  | _ => false

/-- C2 counterexample: a rate-limit rejection is written by `http.Error`
as plain text, not as the three-key JSON envelope. -/
theorem rateLimit_reject_not_envelope :
    (RateLimiter.Limit cfgOn storeDeny reqAnon).body =
      some (.textBody "Too Many Requests\n") ∧
    bodyIsEnvelope (RateLimiter.Limit cfgOn storeDeny reqAnon).body = false := by
  exact ⟨rfl, rfl⟩

/-- C2 (amended): every response the marshaler emits, success or
failure, is a JSON object with exactly the top-level keys
`data`/`message`/`status`; rate-limit rejections are the exception,
bypassing the marshaler as plain text. -/
theorem marshal_always_three_keys (v : GoValue) :
    jsonKeySet (CustomMarshaler.Marshal v) = some [dataKey, messageKey, statusKey] := by
  cases v
  case vMapAny es =>
    cases h1 : es.lookup codeKey with
    | none =>
        simp only [CustomMarshaler.Marshal, h1]
        rfl
    | some c =>
        cases h2 : es.lookup messageKey with
        | none =>
            simp only [CustomMarshaler.Marshal, h1, h2]
            rfl
        | some m =>
            simp only [CustomMarshaler.Marshal, h1, h2]
            rfl
  all_goals rfl

/-- C8: the concrete round trips — a success payload `{"foo":"bar"}`
wraps to status 200, message "success" and the payload under `data`; a
failure map with code 5 ("not found") and message "merchant not found"
wraps to status 404 with `data` null — and in general every failure-path
value emits `data` null with the status mapped from the internal RPC
code. -/
theorem marshal_roundtrip :
    CustomMarshaler.Marshal (.vMapStr [("foo", "bar")]) =
      .obj [(statusKey, Json.num 200), (messageKey, Json.str successMsg),
        (dataKey, Json.obj [("foo", Json.str "bar")])] ∧
    CustomMarshaler.Marshal
        (.vMapAny [(codeKey, GoValue.vInt 5), (messageKey, GoValue.vStr "merchant not found")]) =
      .obj [(dataKey, Json.null), (messageKey, Json.str "merchant not found"),
        (statusKey, Json.num 404)] ∧
    (∀ es code msg, es.lookup codeKey = some code → es.lookup messageKey = some msg →
      ∃ st, CustomMarshaler.Marshal (.vMapAny es) =
          .obj [(dataKey, Json.null), (messageKey, jsonMarshalGo msg),
            (statusKey, Json.num st)] ∧
        (∀ n, code = .vInt n → st = grpcHTTPStatusFromCode n) ∧
        (∀ n, code = .vInt32 n → st = grpcHTTPStatusFromCode n) ∧
        (∀ n, code = .vFloat n → st = grpcHTTPStatusFromCode n)) ∧
    (∀ c m, CustomMarshaler.Marshal (.vStatusProto c m) =
      .obj [(dataKey, Json.null), (messageKey, Json.str m),
        (statusKey, Json.num (grpcHTTPStatusFromCode c))]) := by
  refine ⟨rfl, rfl, ?_, fun c m => rfl⟩
  intro es code msg hc hm
  refine ⟨errCodeStatus code, ?_, ?_, ?_, ?_⟩
  · simp only [CustomMarshaler.Marshal, hc, hm]
  · intro n hn
    subst hn
    rfl
  · intro n hn
    subst hn
    rfl
  · intro n hn
    subst hn
    rfl

/-- C10: any `map[string]interface{}` holding both a `code` and a
`message` key is emitted as the failure envelope with `data` null, even
when it is a success-shaped payload; and when the code value is not an
int, int32 or float64, the status stays at its default 200. -/
theorem marshal_code_message_forces_failure (es : List (String × GoValue))
    (code msg : GoValue)
    (hc : es.lookup codeKey = some code) (hm : es.lookup messageKey = some msg) :
    (∃ st, CustomMarshaler.Marshal (.vMapAny es) =
      .obj [(dataKey, Json.null), (messageKey, jsonMarshalGo msg),
        (statusKey, Json.num st)]) ∧
    ((∀ n, code ≠ .vInt n) → (∀ n, code ≠ .vInt32 n) → (∀ n, code ≠ .vFloat n) →
      CustomMarshaler.Marshal (.vMapAny es) =
        .obj [(dataKey, Json.null), (messageKey, jsonMarshalGo msg),
          (statusKey, Json.num 200)]) := by
  constructor
  · exact ⟨errCodeStatus code, by simp only [CustomMarshaler.Marshal, hc, hm]⟩
  · intro h1 h2 h3
    simp only [CustomMarshaler.Marshal, hc, hm]
    cases code
    case vInt n => exact absurd rfl (h1 n)
    case vInt32 n => exact absurd rfl (h2 n)
    case vFloat n => exact absurd rfl (h3 n)
    all_goals rfl

/-- Witness for C10 at a success-shaped map whose `code` is a string. -/
theorem marshal_code_message_forces_failure_witness :
    (∃ st, CustomMarshaler.Marshal
        (.vMapAny [(codeKey, GoValue.vStr "OK"), (messageKey, GoValue.vStr "hello")]) =
      .obj [(dataKey, Json.null), (messageKey, jsonMarshalGo (GoValue.vStr "hello")),
        (statusKey, Json.num st)]) ∧
    ((∀ n, GoValue.vStr "OK" ≠ .vInt n) → (∀ n, GoValue.vStr "OK" ≠ .vInt32 n) →
      (∀ n, GoValue.vStr "OK" ≠ .vFloat n) →
      CustomMarshaler.Marshal
          (.vMapAny [(codeKey, GoValue.vStr "OK"), (messageKey, GoValue.vStr "hello")]) =
        .obj [(dataKey, Json.null), (messageKey, jsonMarshalGo (GoValue.vStr "hello")),
          (statusKey, Json.num 200)]) :=
  marshal_code_message_forces_failure
    [(codeKey, GoValue.vStr "OK"), (messageKey, GoValue.vStr "hello")]
    (GoValue.vStr "OK") (GoValue.vStr "hello") rfl rfl
